import Mathlib

/-!
Formalization of the batch task runner in `src/run_task.py`.

The module contains a fixed catalog `TASKS` of job dictionaries and three
operations:

* `run_all_tasks(headless)` — opens one agent session, iterates the catalog in
  order, converts each task failure into a recorded outcome dictionary,
  sleeps 3 seconds after a successful task, closes the session in a
  `finally` block, and writes a summary report;
* `generate_summary_report(results)` — builds the aggregate report dictionary
  from the ordered outcome list and persists it;
* `run_single_task(task_index, headless)` — checks the index against the
  catalog bounds, then runs one task with no per-task exception handler.

The external agent (`AgentB`) is opaque: we model its behavior as a record
saying whether `initialize_browser` raises and, for each successive
`execute_task` call, whether it returns a manifest path, raises an ordinary
exception (caught by the loop's `except Exception` clause), or raises an
escaping condition that the `except Exception` clause does not catch (for
example `KeyboardInterrupt`).  Side effects are recorded as an event trace so
that ordering and counting properties (session acquisition/release, pauses,
report writing) can be stated.
-/

/-- Result of one `execute_task` call by the agent: a manifest path on
success, an ordinary exception message (caught by `except Exception`), or an
escaping condition not caught by `except Exception`. -/
inductive ExecOutcome where
  | ok (manifestPath : String)
  | taskError (msg : String)
  | fatal (msg : String)
deriving DecidableEq, Repr

/-- Deterministic behavior of the opaque `AgentB` dependency: whether
`initialize_browser` raises, and the result of the n-th `execute_task` call
(0-based, in call order). -/
structure AgentBehavior where
  initFail : Option String
  execResult : Nat → ExecOutcome

/-- A job descriptor from the catalog in `src/run_task.py`.  The source
stores these as dictionaries with keys `app`, `description`, `url` and
`expected_states`.  The field `maxSteps` is modelled from the spec: the spec
lists `maxSteps` as a Job field, but the source dictionaries carry no such
key and `run_all_tasks` passes the literal `15` to `execute_task` without
reading any per-job step bound; the field is carried here only so that the
spec's pass-through claim can be stated and compared against the code. -/
structure Job where
  app : String
  description : String
  url : String
  expectedStates : List String
  maxSteps : Nat
deriving DecidableEq, Repr

/-- Status string stored in an outcome dictionary: `"success"` or
`"failed"` are the only values the code ever writes. -/
inductive Status where
  | success
  | failed
deriving DecidableEq, Repr

/-- An outcome dictionary appended to `results`.  The success branch writes
keys `task`, `app`, `status`, `manifest`; the failure branch writes `task`,
`app`, `status`, `error`.  Absent keys are `none`. -/
structure Outcome where
  task : String
  app : String
  status : Status
  manifest : Option String
  error : Option String
deriving DecidableEq, Repr

/-- The dictionary appended on the success path of the loop body. -/
def successOutcome (job : Job) (manifestPath : String) : Outcome :=
  { task := job.description
    app := job.app
    status := Status.success
    manifest := some manifestPath
    error := none }

/-- The dictionary appended in the `except Exception` clause. -/
def failedOutcome (job : Job) (e : String) : Outcome :=
  { task := job.description
    app := job.app
    status := Status.failed
    manifest := none
    error := some e }

/-- The static `dataset_structure` object embedded in every report. -/
structure DatasetStructure where
  root : String
  format : String
  manifest_fields : List String
  state_fields : List String
deriving DecidableEq, Repr

/-- The constant `dataset_structure` value from `generate_summary_report`. -/
def datasetStructureValue : DatasetStructure :=
  { root := "captured_states/"
    format := "Each task has its own directory with manifest.json and screenshots"
    manifest_fields := ["task", "total_steps", "states (array of state objects)", "captured_at"]
    state_fields := ["step", "description", "timestamp", "url", "screenshot",
      "viewport", "title", "metadata"] }

/-- The report dictionary built by `generate_summary_report`. -/
structure Report where
  total_tasks : Nat
  successful_tasks : Nat
  failed_tasks : Nat
  apps_covered : List String
  tasks : List Outcome
  dataset_structure : DatasetStructure
deriving DecidableEq, Repr

/-- `generate_summary_report(results)` from `src/run_task.py`: the counts are
Python generator sums over the status field, `apps_covered` is
`list(set(r["app"] for r in results))` (modelled as `List.dedup` of the app
column; Python set order is not specified, so properties about it are stated
up to membership), and `tasks` is the result list itself. -/
def generate_summary_report (results : List Outcome) : Report :=
  { total_tasks := results.length
    successful_tasks := results.countP (fun r => decide (r.status = Status.success))
    failed_tasks := results.countP (fun r => decide (r.status = Status.failed))
    apps_covered := (results.map (fun r => r.app)).dedup
    tasks := results
    dataset_structure := datasetStructureValue }

/-- Observable side effects of a run, in order. -/
inductive Event where
  | initBrowser (headless : Bool)
  | exec (description : String) (url : String) (maxSteps : Nat)
  | record (o : Outcome)
  | sleep (seconds : Nat)
  | closeBrowser
  | writeReport (r : Report)
deriving DecidableEq, Repr

/-- True for `initialize_browser` events. -/
def Event.isInit : Event → Bool
  | Event.initBrowser _ => true
  | _ => false

/-- True for `execute_task` events. -/
def Event.isExec : Event → Bool
  | Event.exec _ _ _ => true
  | _ => false

/-- True for outcome-append events. -/
def Event.isRecord : Event → Bool
  | Event.record _ => true
  | _ => false

/-- True for `asyncio.sleep` events. -/
def Event.isSleep : Event → Bool
  | Event.sleep _ => true
  | _ => false

/-- True for `close_browser` events. -/
def Event.isClose : Event → Bool
  | Event.closeBrowser => true
  | _ => false

/-- True for report-persistence events. -/
def Event.isWrite : Event → Bool
  | Event.writeReport _ => true
  | _ => false

/-- The `for` loop body of `run_all_tasks`, starting at call index `k`:
each iteration calls `execute_task`; on success it appends a success
outcome and sleeps 3 seconds; in the `except Exception` clause it appends a
failed outcome and continues with no sleep; an escaping condition aborts the
loop before any outcome is appended for that job.  Returns the event trace,
the accumulated `results` list, and the escaping condition if one occurred. -/
def runLoop (b : Nat → ExecOutcome) (k : Nat) :
    List Job → List Event × List Outcome × Option String
  | [] => ([], [], none)
  | job :: rest =>
    match b k with
    | ExecOutcome.ok p =>
        let r := runLoop b (k + 1) rest
        (Event.exec job.description job.url 15 ::
           Event.record (successOutcome job p) :: Event.sleep 3 :: r.1,
         successOutcome job p :: r.2.1, r.2.2)
    | ExecOutcome.taskError e =>
        let r := runLoop b (k + 1) rest
        (Event.exec job.description job.url 15 ::
           Event.record (failedOutcome job e) :: r.1,
         failedOutcome job e :: r.2.1, r.2.2)
    | ExecOutcome.fatal m =>
        ([Event.exec job.description job.url 15], [], some m)

/-- The outcome the loop records for the job handled by call index `k`,
assuming the call does not escape (the `fatal` branch is unreachable under
that assumption and its value here is irrelevant). -/
def outcomeOf (b : Nat → ExecOutcome) (k : Nat) (job : Job) : Outcome :=
  match b k with
  | ExecOutcome.ok p => successOutcome job p
  | ExecOutcome.taskError e => failedOutcome job e
  | ExecOutcome.fatal m => failedOutcome job m

/-- `run_all_tasks(headless)` from `src/run_task.py`, parameterized by the
agent behavior and the job sequence (the source iterates the module-level
catalog `TASKS`; instantiating `jobs := TASKS` recovers it).  The session is
opened inside `try`, the loop runs, `close_browser` runs in `finally` on
every path, and `generate_summary_report` runs after the `finally` block only
when no exception is propagating.  Returns the event trace and either the
`results` list or the propagated exception message. -/
def run_all_tasks (ag : AgentBehavior) (jobs : List Job) (headless : Bool) :
    List Event × Except String (List Outcome) :=
  match ag.initFail with
  | some m => ([Event.initBrowser headless, Event.closeBrowser], Except.error m)
  | none =>
    let r := runLoop ag.execResult 0 jobs
    match r.2.2 with
    | some m =>
        (Event.initBrowser headless :: r.1 ++ [Event.closeBrowser], Except.error m)
    | none =>
        (Event.initBrowser headless :: r.1 ++
           [Event.closeBrowser, Event.writeReport (generate_summary_report r.2.1)],
         Except.ok r.2.1)

/-- Result of `run_single_task`: the invalid-index early return, normal
completion with the manifest path, or a propagated exception message. -/
inductive SingleResult where
  | invalidSelection
  | completed (manifestPath : String)
  | raised (msg : String)
deriving DecidableEq, Repr

/-- `run_single_task(task_index, headless)` from `src/run_task.py`,
parameterized by the agent behavior and the catalog.  The index is checked
against the catalog length before the agent object is created; the single
`execute_task` call sits in a `try` block whose only handler is `finally:
close_browser`, so any failure it raises propagates to the caller after the
session is closed. -/
def run_single_task (ag : AgentBehavior) (tasks : List Job) (taskIndex : Nat)
    (headless : Bool) : List Event × SingleResult :=
  if h : taskIndex < tasks.length then
    let task := tasks.get ⟨taskIndex, h⟩
    match ag.initFail with
    | some m => ([Event.initBrowser headless, Event.closeBrowser], SingleResult.raised m)
    | none =>
      match ag.execResult 0 with
      | ExecOutcome.ok p =>
          ([Event.initBrowser headless, Event.exec task.description task.url 15,
            Event.closeBrowser], SingleResult.completed p)
      | ExecOutcome.taskError e =>
          ([Event.initBrowser headless, Event.exec task.description task.url 15,
            Event.closeBrowser], SingleResult.raised e)
      | ExecOutcome.fatal m =>
          ([Event.initBrowser headless, Event.exec task.description task.url 15,
            Event.closeBrowser], SingleResult.raised m)
  else
    ([], SingleResult.invalidSelection)

/-- The module-level catalog `TASKS` from `src/run_task.py`.  The source
dictionaries have no `maxSteps` key; the modelled field is set to 0 here to
record its absence (the runner never reads it). -/
def TASKS : List Job :=
  [ { app := "Linear"
      description := "Create a new project in Linear"
      url := "https://linear.app/test916/team/TES/active"
      expectedStates := ["Projects list view", "Create project button visible",
        "Create project modal open", "Project name input field",
        "Project settings options", "Success state with new project"]
      maxSteps := 0 }
  , { app := "Linear"
      description := "Create a new issue in Linear"
      url := "https://linear.app/test916/team/TES/active"
      expectedStates := ["Issues board view", "New issue button visible",
        "Issue creation modal", "Title and description fields",
        "Priority and assignee options", "Issue created confirmation"]
      maxSteps := 0 }
  , { app := "Linear"
      description := "Filter issues by status in Linear"
      url := "https://linear.app/test916/team/TES/active"
      expectedStates := ["Issues view with filters", "Filter menu button",
        "Filter dropdown expanded", "Status filter options",
        "Applied filter view", "Filtered results displayed"]
      maxSteps := 0 }
  , { app := "Notion"
      description := "Create a new page in Notion"
      url := "https://www.notion.so/"
      expectedStates := ["Notion workspace", "New page button",
        "Empty page editor", "Title input", "Content area", "Page saved"]
      maxSteps := 0 }
  , { app := "Notion"
      description := "Filter a database by property in Notion"
      url := "https://www.notion.so/"
      expectedStates := ["Database view", "Filter button visible",
        "Filter options panel", "Property selection", "Filter applied",
        "Filtered database results"]
      maxSteps := 0 }
  ]

/-- A sample job for concrete instantiations. -/
def jobA : Job :=
  { app := "Linear", description := "taskA", url := "urlA", expectedStates := [], maxSteps := 0 }

/-- A second sample job for concrete instantiations. -/
def jobB : Job :=
  { app := "Notion", description := "taskB", url := "urlB", expectedStates := [], maxSteps := 0 }

/-- A sample job whose modelled spec-level step bound is 7, not 15. -/
def jobC : Job :=
  { app := "Linear", description := "taskC", url := "urlC", expectedStates := [], maxSteps := 7 }

/-- A fake agent whose calls all succeed. -/
def agAllOk : AgentBehavior :=
  { initFail := none, execResult := fun _ => ExecOutcome.ok "manifest" }

/-- A fake agent whose first task call raises and whose later calls succeed. -/
def agFailFirst : AgentBehavior :=
  { initFail := none
    execResult := fun k => if k = 0 then ExecOutcome.taskError "boom" else ExecOutcome.ok "manifest" }

/-- A fake agent whose task calls all raise ordinary exceptions. -/
def agAllFail : AgentBehavior :=
  { initFail := none, execResult := fun _ => ExecOutcome.taskError "boom" }

/-- A fake agent whose session initialization raises. -/
def agInitFail : AgentBehavior :=
  { initFail := some "no browser", execResult := fun _ => ExecOutcome.ok "manifest" }

/-- The loop trace contains no session-open, session-close or report-write
events: those happen outside the `for` loop. -/
theorem runLoop_trace_counts (b : Nat → ExecOutcome) :
    ∀ (jobs : List Job) (k : Nat),
      (runLoop b k jobs).1.countP Event.isInit = 0 ∧
      (runLoop b k jobs).1.countP Event.isClose = 0 ∧
      (runLoop b k jobs).1.countP Event.isWrite = 0 := by
  intro jobs
  induction jobs with
  | nil => intro k; simp [runLoop]
  | cons job rest ih =>
    intro k
    have h := ih (k + 1)
    cases hbk : b k with
    | ok p =>
      simp [runLoop, hbk, List.countP_cons, Event.isInit, Event.isClose, Event.isWrite,
        h.1, h.2.1, h.2.2]
    | taskError e =>
      simp [runLoop, hbk, List.countP_cons, Event.isInit, Event.isClose, Event.isWrite,
        h.1, h.2.1, h.2.2]
    | fatal m =>
      simp [runLoop, hbk, List.countP_cons, Event.isInit, Event.isClose, Event.isWrite]

/-- If no call escapes the `except Exception` clause, the loop records one
outcome per job, at the same position, determined by the call result. -/
theorem runLoop_getElem (b : Nat → ExecOutcome)
    (hnf : ∀ j m, b j ≠ ExecOutcome.fatal m) :
    ∀ (jobs : List Job) (k i : Nat),
      ((runLoop b k jobs).2.1)[i]? = (jobs[i]?).map (fun job => outcomeOf b (k + i) job) := by
  intro jobs
  induction jobs with
  | nil => intro k i; simp [runLoop]
  | cons job rest ih =>
    intro k i
    cases hbk : b k with
    | ok p =>
      cases i with
      | zero => simp [runLoop, hbk, outcomeOf]
      | succ n =>
        have harith : k + 1 + n = k + (n + 1) := by omega
        simp only [runLoop, hbk]
        rw [List.getElem?_cons_succ, List.getElem?_cons_succ, ih (k + 1) n, harith]
    | taskError e =>
      cases i with
      | zero => simp [runLoop, hbk, outcomeOf]
      | succ n =>
        have harith : k + 1 + n = k + (n + 1) := by omega
        simp only [runLoop, hbk]
        rw [List.getElem?_cons_succ, List.getElem?_cons_succ, ih (k + 1) n, harith]
    | fatal m => exact absurd hbk (hnf k m)

/-- If no call escapes, the loop terminates normally (no propagating
condition). -/
theorem runLoop_fatal_none (b : Nat → ExecOutcome)
    (hnf : ∀ j m, b j ≠ ExecOutcome.fatal m) :
    ∀ (jobs : List Job) (k : Nat), (runLoop b k jobs).2.2 = none := by
  intro jobs
  induction jobs with
  | nil => intro k; simp [runLoop]
  | cons job rest ih =>
    intro k
    cases hbk : b k with
    | ok p => simp [runLoop, hbk, ih (k + 1)]
    | taskError e => simp [runLoop, hbk, ih (k + 1)]
    | fatal m => exact absurd hbk (hnf k m)

/-- If no call escapes, the loop records exactly as many outcomes as there
are jobs. -/
theorem runLoop_length (b : Nat → ExecOutcome)
    (hnf : ∀ j m, b j ≠ ExecOutcome.fatal m) :
    ∀ (jobs : List Job) (k : Nat), (runLoop b k jobs).2.1.length = jobs.length := by
  intro jobs
  induction jobs with
  | nil => intro k; simp [runLoop]
  | cons job rest ih =>
    intro k
    cases hbk : b k with
    | ok p => simp [runLoop, hbk, ih (k + 1)]
    | taskError e => simp [runLoop, hbk, ih (k + 1)]
    | fatal m => exact absurd hbk (hnf k m)

/-- If no call escapes, the loop issues exactly one `execute_task` call per
job. -/
theorem runLoop_exec_count (b : Nat → ExecOutcome)
    (hnf : ∀ j m, b j ≠ ExecOutcome.fatal m) :
    ∀ (jobs : List Job) (k : Nat),
      (runLoop b k jobs).1.countP Event.isExec = jobs.length := by
  intro jobs
  induction jobs with
  | nil => intro k; simp [runLoop]
  | cons job rest ih =>
    intro k
    cases hbk : b k with
    | ok p =>
      simp [runLoop, hbk, List.countP_cons, Event.isExec, Event.isRecord, Event.isSleep,
        ih (k + 1)]
    | taskError e =>
      simp [runLoop, hbk, List.countP_cons, Event.isExec, Event.isRecord, ih (k + 1)]
    | fatal m => exact absurd hbk (hnf k m)

/-- Whenever the loop terminates normally, the recorded outcomes line up
with the jobs, in order, one per job. -/
theorem runLoop_map_of_fatal_none (b : Nat → ExecOutcome) :
    ∀ (jobs : List Job) (k : Nat), (runLoop b k jobs).2.2 = none →
      (runLoop b k jobs).2.1.map (fun o => (o.task, o.app)) =
        jobs.map (fun j => (j.description, j.app)) := by
  intro jobs
  induction jobs with
  | nil => intro k _; simp [runLoop]
  | cons job rest ih =>
    intro k hnone
    cases hbk : b k with
    | ok p =>
      have hrest : (runLoop b (k + 1) rest).2.2 = none := by
        simpa [runLoop, hbk] using hnone
      simp [runLoop, hbk, successOutcome, ih (k + 1) hrest]
    | taskError e =>
      have hrest : (runLoop b (k + 1) rest).2.2 = none := by
        simpa [runLoop, hbk] using hnone
      simp [runLoop, hbk, failedOutcome, ih (k + 1) hrest]
    | fatal m =>
      exfalso
      simp [runLoop, hbk] at hnone

/-- Every outcome the loop ever records was built by one of the two append
sites. -/
theorem runLoop_mem_shape (b : Nat → ExecOutcome) :
    ∀ (jobs : List Job) (k : Nat) (o : Outcome), o ∈ (runLoop b k jobs).2.1 →
      (∃ job p, o = successOutcome job p) ∨ (∃ job e, o = failedOutcome job e) := by
  intro jobs
  induction jobs with
  | nil => intro k o ho; simp [runLoop] at ho
  | cons job rest ih =>
    intro k o ho
    cases hbk : b k with
    | ok p =>
      rw [runLoop] at ho
      simp only [hbk, List.mem_cons] at ho
      rcases ho with rfl | ho
      · exact Or.inl ⟨job, p, rfl⟩
      · exact ih (k + 1) o ho
    | taskError e =>
      rw [runLoop] at ho
      simp only [hbk, List.mem_cons] at ho
      rcases ho with rfl | ho
      · exact Or.inr ⟨job, e, rfl⟩
      · exact ih (k + 1) o ho
    | fatal m =>
      rw [runLoop] at ho
      simp [hbk] at ho

/-- Every `execute_task` event the loop emits carries the step bound 15. -/
theorem runLoop_exec_steps (b : Nat → ExecOutcome) :
    ∀ (jobs : List Job) (k : Nat) (d u : String) (m : Nat),
      Event.exec d u m ∈ (runLoop b k jobs).1 → m = 15 := by
  intro jobs
  induction jobs with
  | nil => intro k d u m hm; simp [runLoop] at hm
  | cons job rest ih =>
    intro k d u m hm
    cases hbk : b k with
    | ok p =>
      rw [runLoop] at hm
      simp only [hbk, List.mem_cons] at hm
      rcases hm with h | h | h | h
      · exact (Event.exec.injEq _ _ _ _ _ _).mp h |>.2.2
      · exact absurd h (by simp)
      · exact absurd h (by simp)
      · exact ih (k + 1) d u m h
    | taskError e =>
      rw [runLoop] at hm
      simp only [hbk, List.mem_cons] at hm
      rcases hm with h | h | h
      · exact (Event.exec.injEq _ _ _ _ _ _).mp h |>.2.2
      · exact absurd h (by simp)
      · exact ih (k + 1) d u m h
    | fatal mm =>
      rw [runLoop] at hm
      simp only [hbk, List.mem_cons] at hm
      rcases hm with h | h
      · exact (Event.exec.injEq _ _ _ _ _ _).mp h |>.2.2
      · exact absurd h (by simp)

/-- On any successful run, the results list is the loop's outcome list. -/
theorem run_all_tasks_ok (ag : AgentBehavior) (jobs : List Job) (headless : Bool)
    (os : List Outcome) (h : (run_all_tasks ag jobs headless).2 = Except.ok os) :
    ag.initFail = none ∧ (runLoop ag.execResult 0 jobs).2.2 = none ∧
      os = (runLoop ag.execResult 0 jobs).2.1 := by
  cases hinit : ag.initFail with
  | some m => simp [run_all_tasks, hinit] at h
  | none =>
    cases hf : (runLoop ag.execResult 0 jobs).2.2 with
    | some m => simp [run_all_tasks, hinit, hf] at h
    | none =>
      refine ⟨rfl, rfl, ?_⟩
      simp [run_all_tasks, hinit, hf] at h
      exact h.symm

/-- In every outcome list, the success count and the failure count sum to
the length, because the status field only takes the two values the code
writes. -/
theorem countP_status_total (os : List Outcome) :
    os.countP (fun r => decide (r.status = Status.success)) +
      os.countP (fun r => decide (r.status = Status.failed)) = os.length := by
  induction os with
  | nil => simp
  | cons o rest ih =>
    cases ho : o.status <;> simp [List.countP_cons, ho] <;> omega

/-- C1: for every job sequence given to the batch runner, a completed run
produces an ordered outcome sequence of the same length as the input, whose
entries carry the input jobs' descriptions and applications in the same
order — exactly one outcome per job. -/
theorem run_ordered_outcome_per_job
    (ag : AgentBehavior) (jobs : List Job) (headless : Bool) (os : List Outcome)
    (h : (run_all_tasks ag jobs headless).2 = Except.ok os) :
    os.length = jobs.length ∧
      os.map (fun o => (o.task, o.app)) = jobs.map (fun j => (j.description, j.app)) := by
  obtain ⟨hinit, hf, rfl⟩ := run_all_tasks_ok ag jobs headless os h
  have hmap := runLoop_map_of_fatal_none ag.execResult jobs 0 hf
  constructor
  · have := congrArg List.length hmap
    simpa using this
  · exact hmap

/-- Witness for C1 at a concrete two-job run. -/
theorem run_ordered_outcome_per_job_witness :
    ([successOutcome jobA "manifest", successOutcome jobB "manifest"] : List Outcome).length =
        [jobA, jobB].length ∧
      ([successOutcome jobA "manifest", successOutcome jobB "manifest"] : List Outcome).map
          (fun o => (o.task, o.app)) =
        [jobA, jobB].map (fun j => (j.description, j.app)) :=
  run_ordered_outcome_per_job agAllOk [jobA, jobB] false
    [successOutcome jobA "manifest", successOutcome jobB "manifest"] rfl

/-- C2: if `execute_task` raises an ordinary exception for job k, the
exception is caught at the per-job boundary (the run still returns a result
list), job k gets a failed outcome carrying the failure text, every job
(including all later ones) gets its outcome at its own position, and one
`execute_task` call is issued per job. -/
theorem failed_job_isolated_and_rest_attempted
    (ag : AgentBehavior) (jobs : List Job) (headless : Bool) (k : Nat) (e : String)
    (hinit : ag.initFail = none)
    (hnf : ∀ j m, ag.execResult j ≠ ExecOutcome.fatal m)
    (hk : k < jobs.length)
    (he : ag.execResult k = ExecOutcome.taskError e) :
    ∃ os, (run_all_tasks ag jobs headless).2 = Except.ok os ∧
      os.length = jobs.length ∧
      os[k]? = (jobs[k]?).map (fun job => failedOutcome job e) ∧
      (∀ j, os[j]? = (jobs[j]?).map (fun job => outcomeOf ag.execResult j job)) ∧
      (run_all_tasks ag jobs headless).1.countP Event.isExec = jobs.length := by
  have hf := runLoop_fatal_none ag.execResult hnf jobs 0
  refine ⟨(runLoop ag.execResult 0 jobs).2.1, ?_, ?_, ?_, ?_, ?_⟩
  · simp [run_all_tasks, hinit, hf]
  · exact runLoop_length ag.execResult hnf jobs 0
  · rw [runLoop_getElem ag.execResult hnf jobs 0 k]
    simp only [Nat.zero_add, outcomeOf, he]
  · intro j
    rw [runLoop_getElem ag.execResult hnf jobs 0 j]
    simp only [Nat.zero_add]
  · simp [run_all_tasks, hinit, hf, List.countP_append, List.countP_cons, Event.isExec,
      runLoop_exec_count ag.execResult hnf jobs 0]

/-- Witness for C2: first job fails, second job still attempted and
recorded. -/
theorem failed_job_isolated_and_rest_attempted_witness :
    ∃ os, (run_all_tasks agFailFirst [jobA, jobB] false).2 = Except.ok os ∧
      os.length = [jobA, jobB].length ∧
      os[0]? = (([jobA, jobB] : List Job)[0]?).map (fun job => failedOutcome job "boom") ∧
      (∀ j, os[j]? = (([jobA, jobB] : List Job)[j]?).map
        (fun job => outcomeOf agFailFirst.execResult j job)) ∧
      (run_all_tasks agFailFirst [jobA, jobB] false).1.countP Event.isExec =
        [jobA, jobB].length :=
  failed_job_isolated_and_rest_attempted agFailFirst [jobA, jobB] false 0 "boom" rfl
    (by intro j m; cases j <;> simp [agFailFirst]) (by simp) rfl

/-- C3: on every run — all jobs succeeding, some failing, an escaping
condition aborting the loop, or session initialization itself raising — the
session is opened exactly once, as the first event (so before any job
executes), and closed exactly once. -/
theorem session_opened_and_closed_exactly_once
    (ag : AgentBehavior) (jobs : List Job) (headless : Bool) :
    (run_all_tasks ag jobs headless).1.countP Event.isInit = 1 ∧
      (run_all_tasks ag jobs headless).1.countP Event.isClose = 1 ∧
      (run_all_tasks ag jobs headless).1.head? = some (Event.initBrowser headless) := by
  cases hinit : ag.initFail with
  | some m =>
    simp [run_all_tasks, hinit, List.countP_cons, Event.isInit, Event.isClose]
  | none =>
    have h := runLoop_trace_counts ag.execResult jobs 0
    cases hf : (runLoop ag.execResult 0 jobs).2.2 with
    | some m =>
      simp [run_all_tasks, hinit, hf, List.countP_append, List.countP_cons,
        Event.isInit, Event.isClose, h.1, h.2.1]
    | none =>
      simp [run_all_tasks, hinit, hf, List.countP_append, List.countP_cons,
        Event.isInit, Event.isClose, h.1, h.2.1]

/-- C4: every outcome a run produces has its artifact field set exactly when
its status is success and its error field set exactly when its status is
failed; exactly one of the two fields is set. -/
theorem outcome_fields_exclusive
    (ag : AgentBehavior) (jobs : List Job) (headless : Bool) (os : List Outcome)
    (o : Outcome) (h : (run_all_tasks ag jobs headless).2 = Except.ok os) (ho : o ∈ os) :
    (o.manifest.isSome ↔ o.status = Status.success) ∧
      (o.error.isSome ↔ o.status = Status.failed) ∧
      ((o.manifest.isSome ∧ o.error = none) ∨ (o.error.isSome ∧ o.manifest = none)) := by
  obtain ⟨hinit, hf, rfl⟩ := run_all_tasks_ok ag jobs headless os h
  rcases runLoop_mem_shape ag.execResult jobs 0 o ho with ⟨job, p, rfl⟩ | ⟨job, e, rfl⟩
  · simp [successOutcome]
  · simp [failedOutcome]

/-- Witness for C4 at a failed outcome of a concrete run. -/
theorem outcome_fields_exclusive_witness :
    ((failedOutcome jobA "boom").manifest.isSome ↔
        (failedOutcome jobA "boom").status = Status.success) ∧
      ((failedOutcome jobA "boom").error.isSome ↔
        (failedOutcome jobA "boom").status = Status.failed) ∧
      (((failedOutcome jobA "boom").manifest.isSome ∧ (failedOutcome jobA "boom").error = none) ∨
        ((failedOutcome jobA "boom").error.isSome ∧ (failedOutcome jobA "boom").manifest = none)) :=
  outcome_fields_exclusive agAllFail [jobA] false [failedOutcome jobA "boom"]
    (failedOutcome jobA "boom") rfl (by simp)

/-- C5: the generated report's total is the number of outcomes, its success
and failure counts are the sizes of the partition of the outcomes by status
and sum to the total, its covered-application list is the deduplicated set of
application values across the outcomes, and its tasks field is the outcome
list itself in order. -/
theorem report_satisfies_reference_definitions (os : List Outcome) :
    (generate_summary_report os).total_tasks = os.length ∧
      (generate_summary_report os).successful_tasks =
        os.countP (fun r => decide (r.status = Status.success)) ∧
      (generate_summary_report os).failed_tasks =
        os.countP (fun r => decide (r.status = Status.failed)) ∧
      (generate_summary_report os).successful_tasks +
          (generate_summary_report os).failed_tasks =
        (generate_summary_report os).total_tasks ∧
      (generate_summary_report os).apps_covered.Nodup ∧
      (∀ a, a ∈ (generate_summary_report os).apps_covered ↔ ∃ o ∈ os, o.app = a) ∧
      (generate_summary_report os).tasks = os := by
  refine ⟨rfl, rfl, rfl, countP_status_total os, List.nodup_dedup _, ?_, rfl⟩
  intro a
  simp [generate_summary_report, List.mem_dedup, List.mem_map]

/-- C10: when session initialization raises, the runner still closes the
session exactly once in cleanup, attempts no job, records no outcome, writes
no report, and propagates the initialization error. -/
theorem init_failure_closed_once_nothing_attempted
    (ag : AgentBehavior) (jobs : List Job) (headless : Bool) (m : String)
    (h : ag.initFail = some m) :
    run_all_tasks ag jobs headless =
        ([Event.initBrowser headless, Event.closeBrowser], Except.error m) ∧
      (run_all_tasks ag jobs headless).1.countP Event.isClose = 1 ∧
      (run_all_tasks ag jobs headless).1.countP Event.isExec = 0 ∧
      (run_all_tasks ag jobs headless).1.countP Event.isRecord = 0 ∧
      (run_all_tasks ag jobs headless).1.countP Event.isWrite = 0 := by
  simp [run_all_tasks, h, List.countP_cons, Event.isClose, Event.isExec, Event.isRecord,
    Event.isWrite]

/-- Witness for C10 with a concrete failing-initialization agent. -/
theorem init_failure_closed_once_nothing_attempted_witness :
    run_all_tasks agInitFail [jobA] false =
        ([Event.initBrowser false, Event.closeBrowser], Except.error "no browser") ∧
      (run_all_tasks agInitFail [jobA] false).1.countP Event.isClose = 1 ∧
      (run_all_tasks agInitFail [jobA] false).1.countP Event.isExec = 0 ∧
      (run_all_tasks agInitFail [jobA] false).1.countP Event.isRecord = 0 ∧
      (run_all_tasks agInitFail [jobA] false).1.countP Event.isWrite = 0 :=
  init_failure_closed_once_nothing_attempted agInitFail [jobA] false "no browser" rfl

/-- C6 counterexample: in a run whose first job fails and whose second job
succeeds, the event immediately after recording the first job's failed
outcome is the second job's execution — no 3-unit pause occurs between a
failed job and the next job, contrary to the claim that the pause follows
every completed job. -/
theorem no_pause_after_failed_job_cex :
    (run_all_tasks agFailFirst [jobA, jobB] false).1[2]? =
        some (Event.record (failedOutcome jobA "boom")) ∧
      (run_all_tasks agFailFirst [jobA, jobB] false).1[3]? =
        some (Event.exec "taskB" "urlB" 15) ∧
      ((run_all_tasks agFailFirst [jobA, jobB] false).1.take 4).countP Event.isSleep = 0 := by
  refine ⟨rfl, rfl, rfl⟩

/-- C6 amended: the runner pauses for 3 time units only after recording a
Success outcome (then it does so even for the final job); after a Failed
outcome it proceeds immediately, with no pause; an escaping call ends the
loop trace at its execution event.  Consequently the number of pauses in a
loop trace equals the number of Success outcomes, not the number of
completed jobs. -/
theorem pause_follows_success_only
    (b : Nat → ExecOutcome) (jobs : List Job) (k : Nat) (job : Job) (rest : List Job) :
    ((runLoop b k jobs).1.countP Event.isSleep =
        (runLoop b k jobs).2.1.countP (fun o => decide (o.status = Status.success))) ∧
      (runLoop b k (job :: rest)).1 =
        Event.exec job.description job.url 15 ::
          (match b k with
            | ExecOutcome.ok p =>
                Event.record (successOutcome job p) :: Event.sleep 3 ::
                  (runLoop b (k + 1) rest).1
            | ExecOutcome.taskError e =>
                Event.record (failedOutcome job e) :: (runLoop b (k + 1) rest).1
            | ExecOutcome.fatal _ => []) := by
  constructor
  · induction jobs generalizing k with
    | nil => simp [runLoop]
    | cons j js ih =>
      cases hbk : b k with
      | ok p =>
        simp [runLoop, hbk, List.countP_cons, Event.isSleep, successOutcome, ih (k + 1)]
      | taskError e =>
        simp [runLoop, hbk, List.countP_cons, Event.isSleep, failedOutcome, ih (k + 1)]
      | fatal m =>
        simp [runLoop, hbk, List.countP_cons, Event.isSleep]
  · cases hbk : b k <;> simp [runLoop, hbk]

/-- C7 counterexample: in single-job mode with an in-range index, a task
failure is not converted into a Failed outcome record — nothing is recorded
at all and the failure propagates to the caller. -/
theorem single_task_failure_propagates_cex :
    (run_single_task agAllFail [jobA] 0 false).2 = SingleResult.raised "boom" ∧
      (run_single_task agAllFail [jobA] 0 false).1.countP Event.isRecord = 0 ∧
      (run_single_task agAllFail [jobA] 0 false).1.countP Event.isInit = 1 ∧
      (run_single_task agAllFail [jobA] 0 false).1.countP Event.isClose = 1 := by
  refine ⟨rfl, rfl, rfl, rfl⟩

/-- C7 amended: for an in-range index, when the agent's task call raises an
ordinary exception, single-job mode still opens and closes the session
exactly once, but it absorbs nothing: no outcome is recorded and the failure
propagates to the caller. -/
theorem single_mode_symmetry_without_absorption
    (ag : AgentBehavior) (tasks : List Job) (i : Nat) (headless : Bool) (e : String)
    (hi : i < tasks.length)
    (hinit : ag.initFail = none)
    (hex : ag.execResult 0 = ExecOutcome.taskError e) :
    (run_single_task ag tasks i headless).1.countP Event.isInit = 1 ∧
      (run_single_task ag tasks i headless).1.countP Event.isClose = 1 ∧
      (run_single_task ag tasks i headless).1.countP Event.isRecord = 0 ∧
      (run_single_task ag tasks i headless).2 = SingleResult.raised e := by
  unfold run_single_task
  rw [dif_pos hi]
  simp [hinit, hex, List.countP_cons, Event.isInit, Event.isClose, Event.isRecord]

/-- Witness for C7's amended claim at a concrete failing agent. -/
theorem single_mode_symmetry_without_absorption_witness :
    (run_single_task agAllFail [jobA] 0 false).1.countP Event.isInit = 1 ∧
      (run_single_task agAllFail [jobA] 0 false).1.countP Event.isClose = 1 ∧
      (run_single_task agAllFail [jobA] 0 false).1.countP Event.isRecord = 0 ∧
      (run_single_task agAllFail [jobA] 0 false).2 = SingleResult.raised "boom" :=
  single_mode_symmetry_without_absorption agAllFail [jobA] 0 false "boom" (by decide) rfl rfl

/-- C8: single-job mode with a position at or past the catalog length
returns the invalid-selection report before the agent object is even
created: the trace is empty, so zero sessions are opened and zero task
executions happen. -/
theorem out_of_range_selection_no_session
    (ag : AgentBehavior) (tasks : List Job) (i : Nat) (headless : Bool)
    (h : tasks.length ≤ i) :
    run_single_task ag tasks i headless = ([], SingleResult.invalidSelection) ∧
      (run_single_task ag tasks i headless).1.countP Event.isInit = 0 ∧
      (run_single_task ag tasks i headless).1.countP Event.isExec = 0 := by
  have hlt : ¬ i < tasks.length := by omega
  simp [run_single_task, hlt]

/-- Witness for C8 at the source catalog with index equal to its length. -/
theorem out_of_range_selection_no_session_witness :
    run_single_task agAllOk TASKS 5 false = ([], SingleResult.invalidSelection) ∧
      (run_single_task agAllOk TASKS 5 false).1.countP Event.isInit = 0 ∧
      (run_single_task agAllOk TASKS 5 false).1.countP Event.isExec = 0 :=
  out_of_range_selection_no_session agAllOk TASKS 5 false (by decide)

/-- C9 counterexample: for a job whose modelled spec-level step bound is 7,
the runner's execution event carries the literal bound 15, and no execution
event carrying the job's own bound occurs. -/
theorem step_bound_not_passed_through_cex :
    Event.exec "taskC" "urlC" 15 ∈ (run_all_tasks agAllOk [jobC] false).1 ∧
      jobC.maxSteps = 7 ∧
      Event.exec "taskC" "urlC" jobC.maxSteps ∉ (run_all_tasks agAllOk [jobC] false).1 := by
  refine ⟨by decide, rfl, by decide⟩

/-- C9 amended: every `execute_task` call issued by the batch runner carries
the constant step bound 15; no per-job field supplies it (the source job
dictionaries have no step-bound key and the call site passes the literal
15). -/
theorem exec_step_bound_constant_15
    (ag : AgentBehavior) (jobs : List Job) (headless : Bool) (d u : String) (m : Nat)
    (h : Event.exec d u m ∈ (run_all_tasks ag jobs headless).1) : m = 15 := by
  cases hinit : ag.initFail with
  | some mm => simp [run_all_tasks, hinit] at h
  | none =>
    cases hf : (runLoop ag.execResult 0 jobs).2.2 with
    | some mm =>
      simp only [run_all_tasks, hinit, hf, List.mem_cons, List.mem_append,
        List.mem_singleton] at h
      rcases h with (h | h) | h | h
      · cases h
      · exact runLoop_exec_steps ag.execResult jobs 0 d u m h
      · cases h
      · simp at h
    | none =>
      simp only [run_all_tasks, hinit, hf, List.mem_cons, List.mem_append,
        List.mem_singleton] at h
      rcases h with (h | h) | h | h | h
      · cases h
      · exact runLoop_exec_steps ag.execResult jobs 0 d u m h
      · cases h
      · cases h
      · simp at h

/-- Witness for C9's amended claim at a concrete run. -/
theorem exec_step_bound_constant_15_witness :
    Event.exec "taskA" "urlA" 15 ∈ (run_all_tasks agAllOk [jobA] false).1 ∧ (15 : Nat) = 15 :=
  ⟨by decide, exec_step_bound_constant_15 agAllOk [jobA] false "taskA" "urlA" 15 (by decide)⟩
